import Mathlib

/-!
Verification development for the canvas API backend
(`backend/canvas-api/index.py`): a single HTTP-triggered function that
persists and retrieves canvas projects and their objects in a relational
store.

Shallow embedding notes:
* JSON values as produced by `json.loads` are modelled by `JVal`; JSON
  numbers are modelled as integers (every request in this API carries
  integer coordinates).  A request body is either a string that parses to
  a `JVal` or a malformed string, on which `json.loads` raises.
* Python runtime exceptions (`KeyError`, `TypeError`, `ValueError`,
  `json.JSONDecodeError`) and store errors raised by the driver are the
  error type `RErr`; fallible code returns `Except RErr _`.
* The relational store is modelled from the spec's schema (the SQL
  migrations are not part of the source tree): `canvas_projects(id, name,
  description, updated_at)` and `canvas_objects(project_id, object_id,
  type, x, y, width, height, text, color, created_at)`.  Timestamps
  (`CURRENT_TIMESTAMP` / column defaults) are a logical clock that ticks
  on every row written, so `created_at` ascending is insertion order.
  Numeric columns are modelled as integers, text columns as strings;
  binding a parameter of the wrong shape to a column raises a store
  error, and `NULL` compares equal to nothing (SQL three-valued `=`).
  Table constraints (uniqueness, foreign keys) are not enforced by the
  model; where a claim needs referential integrity it is a hypothesis.
* `json.dumps` string rendering is abstracted: a response body is either
  the empty string (the OPTIONS branch) or the JSON document handed to
  `json.dumps`.
* `psycopg2.connect`/`cursor`/`close` are resource events recorded in a
  trace; `try`/`finally` runs the two `close` calls on both the normal
  and the exceptional exit.  Closing the connection without `commit`
  rolls back uncommitted statements; every branch of the handler body
  commits immediately before building its return value, so on an
  exception the committed state equals the state at entry.
-/

namespace CanvasApi

/-- A JSON value as returned by `json.loads` (numbers restricted to
integers, which is all this API's requests carry). -/
inductive JVal : Type where
  | null
  | bool (b : Bool)
  | int (n : Int)
  | str (s : String)
  | arr (elems : List JVal)
  | obj (fields : List (String × JVal))

/-- Fields of a parsed JSON object.  `json.loads` builds a `dict`, so a
repeated key keeps its last binding. -/
def jget (fields : List (String × JVal)) (k : String) : Option JVal :=
  fields.foldl (fun acc f => if f.1 = k then some f.2 else acc) none

/-- Field lookup on a `JVal` that is known to be an object (used to state
properties of response documents). -/
def jfield : JVal → String → Option JVal
  | .obj fs, k => jget fs k
  | _, _ => none

/-- Python runtime exceptions and store errors that can escape the
handler body. -/
inductive RErr : Type where
  | keyError (k : String)
  | typeError
  | valueError
  | jsonError
  | dbError
deriving DecidableEq

/-- `body_data.get(k)`: `None` when the key is absent; raises
`AttributeError`/`TypeError` when the receiver is not a dict (modelled as
`typeError`). -/
def pyGetOpt (v : JVal) (k : String) : Except RErr (Option JVal) :=
  match v with
  | .obj fs => .ok (jget fs k)
  | _ => .error .typeError

/-- `obj[k]`: raises `KeyError` when the key is absent, `TypeError` when
the receiver is not a dict. -/
def pyGetItem (v : JVal) (k : String) : Except RErr JVal :=
  match v with
  | .obj fs =>
    match jget fs k with
    | some x => .ok x
    | none => .error (.keyError k)
  | _ => .error .typeError

/-- Digits of a decimal literal folded into a natural number. -/
def digitsVal (l : List Char) : Nat :=
  l.foldl (fun a c => a * 10 + (c.toNat - 48)) 0

/-- Surrounding whitespace stripped, as Python `int()` does before
parsing. -/
def stripSpace (l : List Char) : List Char :=
  ((l.dropWhile Char.isWhitespace).reverse.dropWhile Char.isWhitespace).reverse

/-- Python `int(s)` on a string: strips surrounding whitespace, accepts
one optional sign followed by a non-empty digit run, raises `ValueError`
otherwise (digit-grouping underscores are not modelled). -/
def pyInt (s : String) : Except RErr Int :=
  let t := stripSpace s.toList
  let neg := t.head? = some '-'
  let core := if t.head? = some '-' || t.head? = some '+' then t.tail else t
  if core ≠ [] && core.all Char.isDigit then
    .ok (if neg then -(digitsVal core : Int) else (digitsVal core : Int))
  else .error .valueError

/-- A row of `canvas_projects` (columns from the spec's schema;
`updated_at` is the logical clock value of the last write touching the
row). -/
structure ProjectRow : Type where
  id : Int
  name : String
  description : String
  updated_at : Nat
deriving DecidableEq

/-- A row of `canvas_objects`.  Nullable columns are `Option`s;
`created_at` is the logical clock value at insertion. -/
structure ObjectRow : Type where
  project_id : Option Int
  object_id : Option String
  type : Option String
  x : Option Int
  y : Option Int
  width : Option Int
  height : Option Int
  text : Option String
  color : Option String
  created_at : Nat
deriving DecidableEq

/-- The relational store plus the id sequence and the logical clock. -/
structure DB : Type where
  projects : List ProjectRow
  objects : List ObjectRow
  nextId : Int
  clock : Nat
deriving DecidableEq

/-- The empty store. -/
def DB.empty : DB := ⟨[], [], 1, 0⟩

/-- Binding a JSON value to an integer column: `None` ↦ `NULL`, an
integer passes, anything else is rejected by the store. -/
def toIntCol : JVal → Except RErr (Option Int)
  | .null => .ok none
  | .int n => .ok (some n)
  | _ => .error .dbError

/-- Binding a JSON value to a text column. -/
def toTextCol : JVal → Except RErr (Option String)
  | .null => .ok none
  | .str s => .ok (some s)
  | _ => .error .dbError

/-- SQL `=` on a nullable column: `NULL` is equal to nothing. -/
def sqlEq {α : Type} [DecidableEq α] : Option α → Option α → Bool
  | some a, some b => a = b
  | _, _ => false

/-- `ORDER BY created_at` ascending (with the logical clock, row order
among equal keys never matters: every write gets a fresh tick). -/
def objLe (a b : ObjectRow) : Prop := a.created_at ≤ b.created_at

instance : DecidableRel objLe := fun a b => Nat.decLe a.created_at b.created_at

/-- `ORDER BY updated_at DESC`. -/
def projGe (a b : ProjectRow) : Prop := b.updated_at ≤ a.updated_at

instance : DecidableRel projGe := fun a b => Nat.decLe b.updated_at a.updated_at

/-- `SELECT * FROM canvas_objects WHERE project_id = %s ORDER BY
created_at` (ascending). -/
def DB.selectObjects (db : DB) (pid : Int) : List ObjectRow :=
  (db.objects.filter (fun r => sqlEq r.project_id (some pid))).insertionSort objLe

/-- `SELECT * FROM canvas_projects WHERE id = %s` followed by
`fetchone()`. -/
def DB.findProject (db : DB) (pid : Int) : Option ProjectRow :=
  db.projects.find? (fun p => p.id = pid)

/-- `SELECT * FROM canvas_projects ORDER BY updated_at DESC`. -/
def DB.listProjects (db : DB) : List ProjectRow :=
  db.projects.insertionSort projGe

/-- Serialization of an optional column value back to JSON. -/
def optJ {α : Type} (f : α → JVal) : Option α → JVal
  | none => .null
  | some a => f a

/-- A `canvas_projects` row as the dict produced by `RealDictCursor`. -/
def projectJson (p : ProjectRow) : JVal :=
  .obj [("id", .int p.id), ("name", .str p.name),
        ("description", .str p.description),
        ("updated_at", .int (p.updated_at : Int))]

/-- A `canvas_objects` row as the dict produced by `RealDictCursor`. -/
def objectJson (r : ObjectRow) : JVal :=
  .obj [("project_id", optJ .int r.project_id),
        ("object_id", optJ .str r.object_id),
        ("type", optJ .str r.type),
        ("x", optJ .int r.x), ("y", optJ .int r.y),
        ("width", optJ .int r.width), ("height", optJ .int r.height),
        ("text", optJ .str r.text), ("color", optJ .str r.color),
        ("created_at", .int (r.created_at : Int))]

/-- The result of `json.loads` on the request body string: either a JSON
document or a parse failure. -/
inductive BodyPayload : Type where
  | malformed
  | parsed (v : JVal)

/-- The trigger event: `httpMethod`, `queryStringParameters`, `body`,
each possibly absent. -/
structure Event : Type where
  httpMethod : Option String
  queryStringParameters : Option (List (String × String))
  body : Option BodyPayload

/-- `event.get('httpMethod', 'GET')`. -/
def Event.method (e : Event) : String := e.httpMethod.getD "GET"

/-- `json.loads(event.get('body', '{}'))`. -/
def loads : Option BodyPayload → Except RErr JVal
  | none => .ok (.obj [])
  | some .malformed => .error .jsonError
  | some (.parsed v) => .ok v

/-- A response body: the empty string of the OPTIONS branch, or the JSON
document handed to `json.dumps`. -/
inductive RespBody : Type where
  | empty
  | json (v : JVal)

/-- The normalized HTTP response returned by the handler. -/
structure Response : Type where
  statusCode : Nat
  headers : List (String × String)
  body : RespBody
  isBase64Encoded : Bool

/-- CORS headers of the OPTIONS branch. -/
def corsHeaders : List (String × String) :=
  [("Access-Control-Allow-Origin", "*"),
   ("Access-Control-Allow-Methods", "GET, POST, PUT, DELETE, OPTIONS"),
   ("Access-Control-Allow-Headers", "Content-Type"),
   ("Access-Control-Max-Age", "86400")]

/-- Headers carried by every non-OPTIONS response. -/
def stdHeaders : List (String × String) :=
  [("Content-Type", "application/json"),
   ("Access-Control-Allow-Origin", "*")]

/-- The OPTIONS (preflight) response. -/
def optionsResponse : Response := ⟨200, corsHeaders, .empty, false⟩

/-- The shared 405 response at the bottom of the `try` block. -/
def methodNotAllowed : Response :=
  ⟨405, stdHeaders, .json (.obj [("error", .str "Method not allowed")]), false⟩

/-- The 200 response of a completed `save_objects`. -/
def saveOkResponse : Response :=
  ⟨200, stdHeaders, .json (.obj [("success", .bool true)]), false⟩

/-- Python `action == s` where `action` came from `.get('action')`:
true exactly when the value is the string `s`. -/
def isAction (a : Option JVal) (s : String) : Bool :=
  match a with
  | some (.str t) => t = s
  | _ => false

/-- `body_data.get(k, dflt)` restricted to a text value, as bound to a
NOT NULL text column (`name`/`description` of `create_project`);
a non-text value is rejected by the store. -/
def textOr (v : Option JVal) (dflt : String) : Except RErr String :=
  match v with
  | none => .ok dflt
  | some (.str s) => .ok s
  | some _ => .error .dbError

/-- One iteration of the `save_objects` insert loop: read the object's
fields left to right as the source tuple does (`obj['id']`, `obj['type']`,
`obj['x']`, `obj['y']`, `obj.get('width')`, `obj.get('height')`,
`obj.get('text')`, `obj['color']`), bind them to the column types, append
the row stamped with the next clock tick. -/
def insertObject (pid : JVal) (v : JVal) (db : DB) : Except RErr DB := do
  let idJ ← pyGetItem v "id"
  let tyJ ← pyGetItem v "type"
  let xJ ← pyGetItem v "x"
  let yJ ← pyGetItem v "y"
  let wJ ← pyGetOpt v "width"
  let hJ ← pyGetOpt v "height"
  let txJ ← pyGetOpt v "text"
  let cJ ← pyGetItem v "color"
  let pidC ← toIntCol pid
  let idC ← toTextCol idJ
  let tyC ← toTextCol tyJ
  let xC ← toIntCol xJ
  let yC ← toIntCol yJ
  let wC ← toIntCol (wJ.getD .null)
  let hC ← toIntCol (hJ.getD .null)
  let txC ← toTextCol (txJ.getD .null)
  let cC ← toTextCol cJ
  .ok { db with
        objects := db.objects ++
          [⟨pidC, idC, tyC, xC, yC, wC, hC, txC, cC, db.clock + 1⟩],
        clock := db.clock + 1 }

/-- The `for obj in objects:` insert loop. -/
def insertObjects (pid : JVal) (vs : List JVal) (db : DB) : Except RErr DB :=
  match vs with
  | [] => .ok db
  | v :: rest => do
    let db1 ← insertObject pid v db
    insertObjects pid rest db1

/-- The iterable of the `for` loop; iterating anything but a JSON array
(including `None`) is modelled as a `TypeError`. -/
def asList : JVal → Except RErr (List JVal)
  | .arr l => .ok l
  | _ => .error .typeError

/-- The 200 listing response of `GET` without `project_id`. -/
def listResponse (db : DB) : Response :=
  ⟨200, stdHeaders,
   .json (.obj [("projects", .arr (db.listProjects.map projectJson))]),
   false⟩

/-- The body of the `try` block: dispatch on method and action, run the
SQL, and build the response.  An `.error` result is an exception escaping
the block; the `DB` it would leave behind is the entry state because no
branch commits before its final return (see module header). -/
def handlerBody (e : Event) (db : DB) : Except RErr (Response × DB) :=
  if e.method = "GET" then
    let params := e.queryStringParameters.getD []
    match params.lookup "project_id" with
    | some s =>
      if s = "" then .ok (listResponse db, db)
      else do
        let n1 ← pyInt s
        let objects := db.selectObjects n1
        let n2 ← pyInt s
        let project := db.findProject n2
        .ok (⟨200, stdHeaders,
              .json (.obj [("project", optJ projectJson project),
                           ("objects", .arr (objects.map objectJson))]),
              false⟩, db)
    | none => .ok (listResponse db, db)
  else if e.method = "POST" then do
    let bd ← loads e.body
    let action ← pyGetOpt bd "action"
    if isAction action "create_project" then do
      let nameJ ← pyGetOpt bd "name"
      let descJ ← pyGetOpt bd "description"
      let name ← textOr nameJ "Untitled Project"
      let description ← textOr descJ ""
      let newId := db.nextId
      let db1 : DB :=
        { db with
          projects := db.projects ++ [⟨newId, name, description, db.clock + 1⟩],
          nextId := db.nextId + 1,
          clock := db.clock + 1 }
      .ok (⟨201, stdHeaders, .json (.obj [("project_id", .int newId)]), false⟩,
           db1)
    else if isAction action "save_objects" then do
      let pidJO ← pyGetOpt bd "project_id"
      let pidJ := pidJO.getD .null
      let objsJO ← pyGetOpt bd "objects"
      let objsJ := objsJO.getD (.arr [])
      let pidC ← toIntCol pidJ
      let kept := db.objects.filter (fun r => !(sqlEq r.project_id pidC))
      let db1 : DB := { db with objects := kept }
      let elems ← asList objsJ
      let db2 ← insertObjects pidJ elems db1
      let db3 : DB :=
        { db2 with
          projects := db2.projects.map (fun p =>
            if sqlEq (some p.id) pidC then { p with updated_at := db2.clock + 1 }
            else p),
          clock := db2.clock + 1 }
      .ok (saveOkResponse, db3)
    else .ok (methodNotAllowed, db)
  else .ok (methodNotAllowed, db)

/-- Store-resource events of one invocation. -/
inductive REv : Type where
  | acquireConn
  | acquireCursor
  | releaseCursor
  | releaseConn
deriving DecidableEq

/-- The full outcome of one invocation: the returned response (or the
escaping exception), the committed store, and the resource trace. -/
structure HResult : Type where
  resp : Except RErr Response
  db : DB
  events : List REv

/-- The entry point.  OPTIONS returns before any store access; otherwise
the connection and cursor are opened, the `try` body runs, and the
`finally` block closes cursor then connection on both the normal and the
exceptional exit.  On an exception the connection closes uncommitted, so
the committed store is the entry state. -/
def handler (e : Event) (db : DB) : HResult :=
  if e.method = "OPTIONS" then ⟨.ok optionsResponse, db, []⟩
  else
    match handlerBody e db with
    | .ok (r, db1) =>
      ⟨.ok r, db1, [.acquireConn, .acquireCursor, .releaseCursor, .releaseConn]⟩
    | .error err =>
      ⟨.error err, db, [.acquireConn, .acquireCursor, .releaseCursor, .releaseConn]⟩

/-- Status code of a returned response (`none` when an exception
escaped and no response was constructed). -/
def respStatus : Except RErr Response → Option Nat
  | .ok r => some r.statusCode
  | .error _ => none

/-- A field of a returned JSON response body. -/
def respField (r : Except RErr Response) (k : String) : Option JVal :=
  match r with
  | .ok resp =>
    match resp.body with
    | .json v => jfield v k
    | .empty => none
  | .error _ => none

/-- A POST event with the given parsed body. -/
def postEvent (v : JVal) : Event := ⟨some "POST", none, some (.parsed v)⟩

/-- A GET event with the given query parameters. -/
def getEvent (ps : Option (List (String × String))) : Event :=
  ⟨some "GET", ps, none⟩

/-- A GET event carrying `?project_id=s`. -/
def getByIdEvent (s : String) : Event := getEvent (some [("project_id", s)])

/-- The body of a `save_objects` POST for `project_id = pid` with the
given list of JSON objects. -/
def saveBody (pid : Int) (objs : List (List (String × JVal))) : JVal :=
  .obj [("action", .str "save_objects"), ("project_id", .int pid),
        ("objects", .arr (objs.map .obj))]

/-- The body of a `create_project` POST with an explicit name. -/
def createBody (name : String) : JVal :=
  .obj [("action", .str "create_project"), ("name", .str name)]

/-- The resource trace of every non-OPTIONS invocation. -/
def fullTrace : List REv :=
  [.acquireConn, .acquireCursor, .releaseCursor, .releaseConn]

/-- The fields of one JSON object of a `save_objects` payload. -/
abbrev JObj := List (String × JVal)

/-- The key is present with a string value. -/
def reqStr (o : JObj) (k : String) : Bool :=
  match jget o k with
  | some (.str _) => true
  | _ => false

/-- The key is present with an integer value. -/
def reqInt (o : JObj) (k : String) : Bool :=
  match jget o k with
  | some (.int _) => true
  | _ => false

/-- The key is absent, null, or an integer (an optional numeric
column). -/
def optInt (o : JObj) (k : String) : Bool :=
  match jget o k with
  | none => true
  | some .null => true
  | some (.int _) => true
  | _ => false

/-- The key is absent, null, or a string (an optional text column). -/
def optStr (o : JObj) (k : String) : Bool :=
  match jget o k with
  | none => true
  | some .null => true
  | some (.str _) => true
  | _ => false

/-- A save payload object the store accepts: required fields present
with the column's shape, optional fields absent or of the column's
shape. -/
def wfObj (o : JObj) : Bool :=
  reqStr o "id" && reqStr o "type" && reqInt o "x" && reqInt o "y" &&
  reqStr o "color" && optInt o "width" && optInt o "height" && optStr o "text"

/-- Every object of the payload is acceptable. -/
def wfObjs (objs : List JObj) : Bool := objs.all wfObj

/-- The string value of a field, when it has one. -/
def getStrF (o : JObj) (k : String) : Option String :=
  match jget o k with
  | some (.str s) => some s
  | _ => none

/-- The integer value of a field, when it has one. -/
def getIntF (o : JObj) (k : String) : Option Int :=
  match jget o k with
  | some (.int n) => some n
  | _ => none

/-- The row a well-formed payload object becomes, stamped `t`. -/
def rowOf (pid : Int) (t : Nat) (o : JObj) : ObjectRow :=
  ⟨some pid, getStrF o "id", getStrF o "type", getIntF o "x", getIntF o "y",
   getIntF o "width", getIntF o "height", getStrF o "text", getStrF o "color", t⟩

/-- The rows a well-formed payload becomes, stamped `t+1, t+2, …` in
payload order. -/
def rowsOf (pid : Int) (t : Nat) : List JObj → List ObjectRow
  | [] => []
  | o :: os => rowOf pid (t + 1) o :: rowsOf pid (t + 1) os

/-- The store after a successful `save_objects` for `pid`: rows of other
projects kept, the project's previous rows gone, the payload's rows
appended, the project's `updated_at` touched. -/
def afterSave (pid : Int) (objs : List JObj) (db : DB) : DB :=
  { projects := db.projects.map (fun p =>
      if sqlEq (some p.id) (some pid) then
        { p with updated_at := db.clock + objs.length + 1 }
      else p),
    objects := db.objects.filter (fun r => !(sqlEq r.project_id (some pid))) ++
      rowsOf pid db.clock objs,
    nextId := db.nextId,
    clock := db.clock + objs.length + 1 }

/-- The store after a successful `create_project`. -/
def afterCreate (name description : String) (db : DB) : DB :=
  { projects := db.projects ++ [⟨db.nextId, name, description, db.clock + 1⟩],
    objects := db.objects,
    nextId := db.nextId + 1,
    clock := db.clock + 1 }

/-- Number of object rows of project `pid` carrying `object_id = s`. -/
def countRows (db : DB) (pid : Int) (s : String) : Nat :=
  (db.objects.filter
    (fun r => sqlEq r.project_id (some pid) && r.object_id == some s)).length

/-- One of the required save-payload fields (`id`, `type`, `x`, `y`,
`color`) is absent, so the insert loop raises `KeyError`. -/
def missingReq (o : JObj) : Bool :=
  (jget o "id").isNone || (jget o "type").isNone || (jget o "x").isNone ||
  (jget o "y").isNone || (jget o "color").isNone

/-- Store sanity from the spec's data model, used where a claim needs
it: store-generated project ids are below the id sequence, and object
rows reference project ids below the sequence (referential integrity;
the store's own constraints are not part of the source tree). -/
def WFb (db : DB) : Bool :=
  db.projects.all (fun p => p.id < db.nextId) &&
  db.objects.all (fun r =>
    match r.project_id with
    | some m => m < db.nextId
    | none => true)

/-- The 201 response of `create_project` on a store with id sequence at
`n`. -/
def createdResponse (n : Int) : Response :=
  ⟨201, stdHeaders, .json (.obj [("project_id", .int n)]), false⟩

/-- The 200 response of `GET ?project_id=n` over store `db`. -/
def getByIdResponse (db : DB) (n : Int) : Response :=
  ⟨200, stdHeaders,
   .json (.obj [("project", optJ projectJson (db.findProject n)),
                ("objects", .arr ((db.selectObjects n).map objectJson))]),
   false⟩

/-! ### Basic lemmas about the store primitives -/

@[simp] theorem ok_bind {α β : Type} (a : α) (f : α → Except RErr β) :
    (Except.ok a >>= f) = f a := rfl

@[simp] theorem error_bind {α β : Type} (e : RErr) (f : α → Except RErr β) :
    ((Except.error e : Except RErr α) >>= f) = .error e := rfl

theorem sqlEq_none_right {α : Type} [DecidableEq α] (x : Option α) :
    sqlEq x none = false := by
  cases x <;> rfl

@[simp] theorem toIntCol_null : toIntCol .null = .ok none := rfl

@[simp] theorem toIntCol_int (n : Int) : toIntCol (.int n) = .ok (some n) := rfl

@[simp] theorem toTextCol_null : toTextCol .null = .ok none := rfl

@[simp] theorem toTextCol_str (s : String) : toTextCol (.str s) = .ok (some s) := rfl

theorem reqStr_spec {o : JObj} {k : String} (h : reqStr o k = true) :
    ∃ s, jget o k = some (.str s) ∧ getStrF o k = some s := by
  cases hj : jget o k with
  | none => simp [reqStr, hj] at h
  | some v =>
    cases v with
    | str s => exact ⟨s, rfl, by simp [getStrF, hj]⟩
    | null => simp [reqStr, hj] at h
    | bool b => simp [reqStr, hj] at h
    | int n => simp [reqStr, hj] at h
    | arr l => simp [reqStr, hj] at h
    | obj fs => simp [reqStr, hj] at h

theorem reqInt_spec {o : JObj} {k : String} (h : reqInt o k = true) :
    ∃ n, jget o k = some (.int n) ∧ getIntF o k = some n := by
  cases hj : jget o k with
  | none => simp [reqInt, hj] at h
  | some v =>
    cases v with
    | int n => exact ⟨n, rfl, by simp [getIntF, hj]⟩
    | null => simp [reqInt, hj] at h
    | bool b => simp [reqInt, hj] at h
    | str s => simp [reqInt, hj] at h
    | arr l => simp [reqInt, hj] at h
    | obj fs => simp [reqInt, hj] at h

theorem optInt_spec {o : JObj} {k : String} (h : optInt o k = true) :
    toIntCol ((jget o k).getD .null) = .ok (getIntF o k) := by
  cases hj : jget o k with
  | none => simp [getIntF, hj, toIntCol]
  | some v =>
    cases v with
    | int n => simp [getIntF, hj, toIntCol]
    | null => simp [getIntF, hj, toIntCol]
    | bool b => simp [optInt, hj] at h
    | str s => simp [optInt, hj] at h
    | arr l => simp [optInt, hj] at h
    | obj fs => simp [optInt, hj] at h

theorem optStr_spec {o : JObj} {k : String} (h : optStr o k = true) :
    toTextCol ((jget o k).getD .null) = .ok (getStrF o k) := by
  cases hj : jget o k with
  | none => simp [getStrF, hj, toTextCol]
  | some v =>
    cases v with
    | str s => simp [getStrF, hj, toTextCol]
    | null => simp [getStrF, hj, toTextCol]
    | bool b => simp [optStr, hj] at h
    | int n => simp [optStr, hj] at h
    | arr l => simp [optStr, hj] at h
    | obj fs => simp [optStr, hj] at h

theorem insertObject_wf {o : JObj} (pid : Int) (db : DB) (h : wfObj o = true) :
    insertObject (.int pid) (.obj o) db =
      .ok { db with objects := db.objects ++ [rowOf pid (db.clock + 1) o],
                    clock := db.clock + 1 } := by
  simp only [wfObj, Bool.and_eq_true] at h
  obtain ⟨⟨⟨⟨⟨⟨⟨h1, h2⟩, h3⟩, h4⟩, h5⟩, h6⟩, h7⟩, h8⟩ := h
  obtain ⟨sid, hjid, hgid⟩ := reqStr_spec h1
  obtain ⟨sty, hjty, hgty⟩ := reqStr_spec h2
  obtain ⟨nx, hjx, hgx⟩ := reqInt_spec h3
  obtain ⟨ny, hjy, hgy⟩ := reqInt_spec h4
  obtain ⟨sc, hjc, hgc⟩ := reqStr_spec h5
  have hw := optInt_spec h6
  have hh := optInt_spec h7
  have htx := optStr_spec h8
  simp only [insertObject, pyGetItem, pyGetOpt, hjid, hjty, hjx, hjy, hjc,
             ok_bind, toIntCol_int, toTextCol_str, hw, hh, htx, rowOf,
             hgid, hgty, hgx, hgy, hgc]

theorem insertObjects_wf (pid : Int) (objs : List JObj) (db : DB)
    (h : wfObjs objs = true) :
    insertObjects (.int pid) (objs.map .obj) db =
      .ok { db with objects := db.objects ++ rowsOf pid db.clock objs,
                    clock := db.clock + objs.length } := by
  induction objs generalizing db with
  | nil => simp [insertObjects, rowsOf]
  | cons o os ih =>
    simp only [wfObjs, List.all_cons, Bool.and_eq_true] at h
    obtain ⟨ho, hos⟩ := h
    simp only [List.map_cons, insertObjects, insertObject_wf pid db ho]
    rw [show ((do
        let db1 ← Except.ok (ε := RErr)
          { db with objects := db.objects ++ [rowOf pid (db.clock + 1) o],
                    clock := db.clock + 1 }
        insertObjects (.int pid) (os.map .obj) db1)) =
      insertObjects (.int pid) (os.map .obj)
        { db with objects := db.objects ++ [rowOf pid (db.clock + 1) o],
                  clock := db.clock + 1 } from rfl]
    rw [ih _ hos]
    simp [rowsOf, List.append_assoc]
    omega

/-! ### Handler branch characterizations -/

theorem handler_dispatch (e : Event) (db : DB) (h : ¬ e.method = "OPTIONS") :
    handler e db =
      match handlerBody e db with
      | .ok (r, db1) => ⟨.ok r, db1, fullTrace⟩
      | .error err => ⟨.error err, db, fullTrace⟩ := by
  unfold handler fullTrace
  rw [if_neg h]

theorem handler_create (name : String) (db : DB) :
    handler (postEvent (createBody name)) db =
      ⟨.ok (createdResponse db.nextId), afterCreate name "" db, fullTrace⟩ := rfl

theorem handler_list (db : DB) :
    handler (getEvent none) db = ⟨.ok (listResponse db), db, fullTrace⟩ := rfl

theorem handlerBody_save (pid : Int) (objs : List JObj) (db : DB) :
    handlerBody (postEvent (saveBody pid objs)) db =
      insertObjects (.int pid) (objs.map .obj)
        { db with objects := db.objects.filter (fun r => !(sqlEq r.project_id (some pid))) } >>=
      fun db2 => .ok (saveOkResponse,
        { db2 with
          projects := db2.projects.map (fun p =>
            if sqlEq (some p.id) (some pid) then { p with updated_at := db2.clock + 1 }
            else p),
          clock := db2.clock + 1 }) := rfl

theorem handlerBody_getById (s : String) (db : DB) :
    handlerBody (getByIdEvent s) db =
      (if s = "" then .ok (listResponse db, db) else do
        let n1 ← pyInt s
        let objects := db.selectObjects n1
        let n2 ← pyInt s
        let project := db.findProject n2
        .ok (⟨200, stdHeaders,
              .json (.obj [("project", optJ projectJson project),
                           ("objects", .arr (objects.map objectJson))]),
              false⟩, db)) := rfl

theorem handler_save (pid : Int) (objs : List JObj) (db : DB)
    (h : wfObjs objs = true) :
    handler (postEvent (saveBody pid objs)) db =
      ⟨.ok saveOkResponse, afterSave pid objs db, fullTrace⟩ := by
  have hb := handlerBody_save pid objs db
  rw [insertObjects_wf pid objs _ h] at hb
  simp only [ok_bind] at hb
  rw [handler_dispatch (postEvent (saveBody pid objs)) db
    ((by decide : ¬("POST" : String) = "OPTIONS") : _), hb]
  simp [afterSave]

theorem handler_getById (s : String) (n : Int) (db : DB) (hs : ¬ s = "")
    (hp : pyInt s = .ok n) :
    handler (getByIdEvent s) db = ⟨.ok (getByIdResponse db n), db, fullTrace⟩ := by
  have hb := handlerBody_getById s db
  rw [if_neg hs] at hb
  simp only [hp, ok_bind] at hb
  rw [handler_dispatch (getByIdEvent s) db
    ((by decide : ¬("GET" : String) = "OPTIONS") : _), hb]
  rfl

/-! ### Properties of the inserted rows -/

@[simp] theorem sqlEq_some_some {α : Type} [DecidableEq α] (a b : α) :
    sqlEq (some a) (some b) = decide (a = b) := rfl

theorem rowsOf_project_id (pid : Int) (t : Nat) (objs : List JObj) :
    ∀ r ∈ rowsOf pid t objs, r.project_id = some pid := by
  induction objs generalizing t with
  | nil => intro r hr; cases hr
  | cons o os ih =>
    intro r hr
    rcases List.mem_cons.mp hr with h | h
    · rw [h]; rfl
    · exact ih (t + 1) r h

theorem rowsOf_created_gt (pid : Int) (t : Nat) (objs : List JObj) :
    ∀ r ∈ rowsOf pid t objs, t < r.created_at := by
  induction objs generalizing t with
  | nil => intro r hr; cases hr
  | cons o os ih =>
    intro r hr
    rcases List.mem_cons.mp hr with h | h
    · rw [h]; exact Nat.lt_succ_self t
    · exact Nat.lt_of_succ_lt (ih (t + 1) r h)

theorem rowsOf_sorted (pid : Int) (t : Nat) (objs : List JObj) :
    (rowsOf pid t objs).Pairwise objLe := by
  induction objs generalizing t with
  | nil => exact List.Pairwise.nil
  | cons o os ih =>
    refine List.Pairwise.cons ?_ (ih (t + 1))
    intro r hr
    exact Nat.le_of_lt (rowsOf_created_gt pid (t + 1) os r hr)

theorem rowsOf_filter_self (pid : Int) (t : Nat) (objs : List JObj) :
    (rowsOf pid t objs).filter (fun r => sqlEq r.project_id (some pid)) =
      rowsOf pid t objs := by
  rw [List.filter_eq_self]
  intro r hr
  rw [rowsOf_project_id pid t objs r hr]
  simp

theorem selectObjects_afterSave (pid : Int) (objs : List JObj) (db : DB) :
    (afterSave pid objs db).selectObjects pid = rowsOf pid db.clock objs := by
  show ((db.objects.filter (fun r => !(sqlEq r.project_id (some pid))) ++
      rowsOf pid db.clock objs).filter
      (fun r => sqlEq r.project_id (some pid))).insertionSort objLe = _
  rw [List.filter_append]
  have h1 : (db.objects.filter (fun r => !(sqlEq r.project_id (some pid)))).filter
      (fun r => sqlEq r.project_id (some pid)) = [] := by
    rw [List.filter_filter]
    rw [List.filter_eq_nil_iff]
    intro r _
    cases hq : sqlEq r.project_id (some pid) <;> simp [hq]
  rw [h1, List.nil_append, rowsOf_filter_self]
  exact List.Sorted.insertionSort_eq (rowsOf_sorted pid db.clock objs)

theorem rowsOf_countP (pid : Int) (t : Nat) (objs : List JObj) (s : String) :
    (rowsOf pid t objs).countP
        (fun r => sqlEq r.project_id (some pid) && r.object_id == some s) =
      objs.countP (fun o => getStrF o "id" == some s) := by
  induction objs generalizing t with
  | nil => rfl
  | cons o os ih =>
    show List.countP _ (rowOf pid (t + 1) o :: rowsOf pid (t + 1) os) = _
    rw [List.countP_cons, List.countP_cons, ih (t + 1)]
    have h2 : (rowOf pid (t + 1) o).project_id = some pid := rfl
    have h3 : (rowOf pid (t + 1) o).object_id = getStrF o "id" := rfl
    simp [h2, h3]

theorem countRows_afterSave (pid : Int) (objs : List JObj) (db : DB) (s : String) :
    countRows (afterSave pid objs db) pid s =
      objs.countP (fun o => getStrF o "id" == some s) := by
  unfold countRows
  show ((db.objects.filter (fun r => !(sqlEq r.project_id (some pid))) ++
      rowsOf pid db.clock objs).filter _).length = _
  rw [List.filter_append, List.length_append]
  have h1 : (db.objects.filter (fun r => !(sqlEq r.project_id (some pid)))).filter
      (fun r => sqlEq r.project_id (some pid) && r.object_id == some s) = [] := by
    rw [List.filter_filter, List.filter_eq_nil_iff]
    intro r _
    cases hq : sqlEq r.project_id (some pid) <;> simp [hq]
  rw [h1]
  simp only [List.length_nil, Nat.zero_add]
  rw [← List.countP_eq_length_filter]
  exact rowsOf_countP pid db.clock objs s

/-! ### Consequences of the store sanity predicate -/

theorem WFb_proj {db : DB} (h : WFb db = true) :
    ∀ p ∈ db.projects, p.id < db.nextId := by
  unfold WFb at h
  rw [Bool.and_eq_true] at h
  intro p hp
  have := List.all_eq_true.mp h.1 p hp
  exact of_decide_eq_true this

theorem WFb_obj {db : DB} (h : WFb db = true) :
    ∀ r ∈ db.objects, ∀ m : Int, r.project_id = some m → m < db.nextId := by
  unfold WFb at h
  rw [Bool.and_eq_true] at h
  intro r hr m hm
  have h2 := List.all_eq_true.mp h.2 r hr
  rw [hm] at h2
  exact of_decide_eq_true h2

theorem findProject_afterCreate (name description : String) (db : DB)
    (h : WFb db = true) :
    (afterCreate name description db).findProject db.nextId =
      some ⟨db.nextId, name, description, db.clock + 1⟩ := by
  show (db.projects ++ [(⟨db.nextId, name, description, db.clock + 1⟩ : ProjectRow)]).find?
    (fun p => decide (p.id = db.nextId)) = _
  rw [List.find?_append]
  have h1 : db.projects.find? (fun p => decide (p.id = db.nextId)) = none := by
    rw [List.find?_eq_none]
    intro p hp
    have := WFb_proj h p hp
    simp only [decide_eq_true_eq]
    omega
  rw [h1]
  simp [List.find?]

theorem selectObjects_afterCreate (name description : String) (db : DB)
    (h : WFb db = true) :
    (afterCreate name description db).selectObjects db.nextId = [] := by
  show ((db.objects.filter (fun r => sqlEq r.project_id (some db.nextId))).insertionSort objLe) = []
  have h1 : db.objects.filter (fun r => sqlEq r.project_id (some db.nextId)) = [] := by
    rw [List.filter_eq_nil_iff]
    intro r hr
    cases hpid : r.project_id with
    | none => simp [sqlEq]
    | some m =>
      have := WFb_obj h r hr m hpid
      simp only [sqlEq_some_some, decide_eq_true_eq]
      omega
  rw [h1]
  rfl

/-! ### Inversion lemmas for the failure paths -/

theorem bind_ok_inv {α β : Type} {x : Except RErr α} {f : α → Except RErr β}
    {b : β} (h : (x >>= f) = .ok b) : ∃ a, x = .ok a ∧ f a = .ok b := by
  cases x with
  | ok a => exact ⟨a, rfl, h⟩
  | error e => exact absurd h (by simp)

theorem pyGetItem_ok {v : JVal} {k : String} {x : JVal}
    (h : pyGetItem v k = .ok x) : ∃ fs, v = .obj fs ∧ jget fs k = some x := by
  cases v with
  | obj fs =>
    refine ⟨fs, rfl, ?_⟩
    cases hj : jget fs k with
    | none => rw [pyGetItem, hj] at h; cases h
    | some y => rw [pyGetItem, hj] at h; cases h; rfl
  | null => cases h
  | bool b => cases h
  | int n => cases h
  | str s => cases h
  | arr l => cases h

theorem insertObject_ok_required {pid v : JVal} {db db1 : DB}
    (h : insertObject pid v db = .ok db1) :
    ∃ fs, v = .obj fs ∧ missingReq fs = false := by
  unfold insertObject at h
  obtain ⟨idJ, hid, h⟩ := bind_ok_inv h
  obtain ⟨tyJ, hty, h⟩ := bind_ok_inv h
  obtain ⟨xJ, hx, h⟩ := bind_ok_inv h
  obtain ⟨yJ, hy, h⟩ := bind_ok_inv h
  obtain ⟨wJ, hw, h⟩ := bind_ok_inv h
  obtain ⟨hJ, hh, h⟩ := bind_ok_inv h
  obtain ⟨txJ, htx, h⟩ := bind_ok_inv h
  obtain ⟨cJ, hc, h⟩ := bind_ok_inv h
  obtain ⟨fs, hv, hjid⟩ := pyGetItem_ok hid
  subst hv
  obtain ⟨fs2, hv2, hjty⟩ := pyGetItem_ok hty
  obtain ⟨fs3, hv3, hjx⟩ := pyGetItem_ok hx
  obtain ⟨fs4, hv4, hjy⟩ := pyGetItem_ok hy
  obtain ⟨fs5, hv5, hjc⟩ := pyGetItem_ok hc
  cases hv2
  cases hv3
  cases hv4
  cases hv5
  refine ⟨fs, rfl, ?_⟩
  unfold missingReq
  rw [hjid, hjty, hjx, hjy, hjc]
  rfl

theorem insertObjects_ok_mem {pid : JVal} {vs : List JVal} {db db1 : DB}
    (h : insertObjects pid vs db = .ok db1) :
    ∀ v ∈ vs, ∃ d d1, insertObject pid v d = .ok d1 := by
  induction vs generalizing db with
  | nil => intro v hv; cases hv
  | cons w ws ih =>
    rw [insertObjects] at h
    obtain ⟨d1, hw, h⟩ := bind_ok_inv h
    intro v hv
    rcases List.mem_cons.mp hv with hveq | hvmem
    · exact ⟨db, d1, hveq ▸ hw⟩
    · exact ih h v hvmem

theorem handler_resp_ok {e : Event} {db : DB} {r : Response}
    (hne : ¬ e.method = "OPTIONS") (h : (handler e db).resp = .ok r) :
    ∃ db1, handlerBody e db = .ok (r, db1) := by
  rw [handler_dispatch e db hne] at h
  cases hb : handlerBody e db with
  | ok p =>
    rw [hb] at h
    cases h
    exact ⟨p.2, rfl⟩
  | error err => rw [hb] at h; cases h

/-! ### The POST branches on degenerate bodies -/

theorem handler_save_noPid (db : DB) :
    handler (postEvent (.obj [("action", .str "save_objects")])) db =
      ⟨.ok saveOkResponse, { db with clock := db.clock + 1 }, fullTrace⟩ := by
  rw [handler_dispatch (postEvent (.obj [("action", .str "save_objects")])) db
    ((by decide : ¬("POST" : String) = "OPTIONS") : _)]
  have hb : handlerBody (postEvent (.obj [("action", .str "save_objects")])) db =
      .ok (saveOkResponse,
        { db with
          projects := db.projects.map (fun p =>
            if sqlEq (some p.id) (none : Option Int) then
              { p with updated_at := db.clock + 1 }
            else p),
          objects := db.objects.filter
            (fun r => !(sqlEq r.project_id (none : Option Int))),
          clock := db.clock + 1 }) := rfl
  rw [hb]
  simp [sqlEq_none_right]

theorem handler_unknown_action (a : String) (db : DB)
    (h1 : ¬ a = "create_project") (h2 : ¬ a = "save_objects") :
    handler (postEvent (.obj [("action", .str a)])) db =
      ⟨.ok methodNotAllowed, db, fullTrace⟩ := by
  rw [handler_dispatch (postEvent (.obj [("action", .str a)])) db
    ((by decide : ¬("POST" : String) = "OPTIONS") : _)]
  have e1 : isAction (some (.str a)) "create_project" = false := by
    simp [isAction, h1]
  have e2 : isAction (some (.str a)) "save_objects" = false := by
    simp [isAction, h2]
  have hb : handlerBody (postEvent (.obj [("action", .str a)])) db =
      (if isAction (some (.str a)) "create_project" = true then
         .ok (createdResponse db.nextId, afterCreate "Untitled Project" "" db)
       else if isAction (some (.str a)) "save_objects" = true then
         .ok (saveOkResponse,
           { db with
             projects := db.projects.map (fun p =>
               if sqlEq (some p.id) (none : Option Int) then
                 { p with updated_at := db.clock + 1 }
               else p),
             objects := db.objects.filter
               (fun r => !(sqlEq r.project_id (none : Option Int))),
             clock := db.clock + 1 })
       else .ok (methodNotAllowed, db)) := rfl
  rw [e1, e2] at hb
  simp only [Bool.false_eq_true, if_false] at hb
  rw [hb]

/-! ### The GET branch on arbitrary query parameters -/

theorem handlerBody_getParams (ps : List (String × String)) (db : DB) :
    handlerBody (getEvent (some ps)) db =
      (match ps.lookup "project_id" with
       | some s =>
         if s = "" then .ok (listResponse db, db) else do
           let n1 ← pyInt s
           let objects := db.selectObjects n1
           let n2 ← pyInt s
           let project := db.findProject n2
           .ok (⟨200, stdHeaders,
                 .json (.obj [("project", optJ projectJson project),
                              ("objects", .arr (objects.map objectJson))]),
                 false⟩, db)
       | none => .ok (listResponse db, db)) := rfl

/-! ### The listing order -/

instance : IsTotal ProjectRow projGe := ⟨fun a b => Nat.le_total b.updated_at a.updated_at⟩

instance : IsTrans ProjectRow projGe := ⟨fun _ _ _ hab hbc => Nat.le_trans hbc hab⟩

theorem listProjects_sorted (db : DB) : db.listProjects.Pairwise projGe :=
  List.sorted_insertionSort projGe db.projects

/-! ### Serialized object ids after a save -/

theorem objectJson_object_id (r : ObjectRow) :
    jfield (objectJson r) "object_id" = some (optJ .str r.object_id) := rfl

theorem rowsOf_object_id_map (pid : Int) (t : Nat) (objs : List JObj)
    (h : wfObjs objs = true) :
    (rowsOf pid t objs).map (fun r => jfield (objectJson r) "object_id") =
      objs.map (fun o => jget o "id") := by
  induction objs generalizing t with
  | nil => rfl
  | cons o os ih =>
    simp only [wfObjs, List.all_cons, Bool.and_eq_true] at h
    obtain ⟨ho, hos⟩ := h
    have h1 : reqStr o "id" = true := by
      simp only [wfObj, Bool.and_eq_true] at ho
      exact ho.1.1.1.1.1.1.1
    obtain ⟨s, hj, hg⟩ := reqStr_spec h1
    show jfield (objectJson (rowOf pid (t + 1) o)) "object_id" ::
        (rowsOf pid (t + 1) os).map _ = _
    rw [objectJson_object_id, ih (t + 1) hos]
    show some (optJ JVal.str (getStrF o "id")) :: _ = jget o "id" :: _
    rw [hj, hg]
    rfl

/-! ### The claims -/

/-- C1 counterexample: the claim says a POST with the recognized action
`save_objects` but without the required `project_id` falls through to
the 405 default; on the code it does not — on the empty store it runs
the save path with a null `project_id` and returns 200 with
`{"success": true}`, not 405. -/
theorem claim_C1_counterexample :
    (handler (postEvent (.obj [("action", .str "save_objects")])) DB.empty).resp =
      .ok saveOkResponse ∧
    saveOkResponse.statusCode = 200 ∧ ¬ saveOkResponse.statusCode = 405 :=
  ⟨rfl, rfl, by decide⟩

/-- C1 (amended): only a missing or unrecognized `action` falls through
to the 405 `{"error": "Method not allowed"}` response.  A recognized
action with its required field missing does not: `save_objects` without
`project_id` executes normally with a null project id — the delete and
the update match no rows, so the store's rows are untouched — and
returns 200 with `{"success": true}`. -/
theorem claim_C1 (a : String) (db : DB)
    (h1 : ¬ a = "create_project") (h2 : ¬ a = "save_objects") :
    (handler (postEvent (.obj [("action", .str a)])) db).resp =
      .ok methodNotAllowed ∧
    (handler (postEvent (.obj [("action", .str "save_objects")])) db).resp =
      .ok saveOkResponse ∧
    (handler (postEvent (.obj [("action", .str "save_objects")])) db).db.objects =
      db.objects ∧
    (handler (postEvent (.obj [("action", .str "save_objects")])) db).db.projects =
      db.projects := by
  rw [handler_unknown_action a db h1 h2, handler_save_noPid]
  exact ⟨rfl, rfl, rfl, rfl⟩

/-- Witness for C1 at the unrecognized action "wipe" on the empty
store. -/
theorem claim_C1_witness :
    (¬ ("wipe" : String) = "create_project") ∧ (¬ ("wipe" : String) = "save_objects") ∧
    ((handler (postEvent (.obj [("action", .str "wipe")])) DB.empty).resp =
        .ok methodNotAllowed ∧
      (handler (postEvent (.obj [("action", .str "save_objects")])) DB.empty).resp =
        .ok saveOkResponse ∧
      (handler (postEvent (.obj [("action", .str "save_objects")])) DB.empty).db.objects =
        DB.empty.objects ∧
      (handler (postEvent (.obj [("action", .str "save_objects")])) DB.empty).db.projects =
        DB.empty.projects) :=
  ⟨by decide, by decide, claim_C1 "wipe" DB.empty (by decide) (by decide)⟩

/-- C2 counterexample: the claim quantifies over every object list; for
a list whose two objects share the id "o1" (distinct ids of the list =
{"o1"}), saving it twice for project 1 leaves two rows with object_id
"o1", not one. -/
theorem claim_C2_counterexample :
    countRows
      (handler (postEvent (saveBody 1
        [[("id", .str "o1"), ("type", .str "rect"), ("x", .int 1),
          ("y", .int 2), ("color", .str "c")],
         [("id", .str "o1"), ("type", .str "circle"), ("x", .int 3),
          ("y", .int 4), ("color", .str "c")]]))
        (handler (postEvent (saveBody 1
          [[("id", .str "o1"), ("type", .str "rect"), ("x", .int 1),
            ("y", .int 2), ("color", .str "c")],
           [("id", .str "o1"), ("type", .str "circle"), ("x", .int 3),
            ("y", .int 4), ("color", .str "c")]])) DB.empty).db).db 1 "o1" = 2 ∧
    ¬ countRows
      (handler (postEvent (saveBody 1
        [[("id", .str "o1"), ("type", .str "rect"), ("x", .int 1),
          ("y", .int 2), ("color", .str "c")],
         [("id", .str "o1"), ("type", .str "circle"), ("x", .int 3),
          ("y", .int 4), ("color", .str "c")]]))
        (handler (postEvent (saveBody 1
          [[("id", .str "o1"), ("type", .str "rect"), ("x", .int 1),
            ("y", .int 2), ("color", .str "c")],
           [("id", .str "o1"), ("type", .str "circle"), ("x", .int 3),
            ("y", .int 4), ("color", .str "c")]])) DB.empty).db).db 1 "o1" = 1 :=
  ⟨by decide, by decide⟩

theorem countP_eq_ite_of_nodup {α : Type} [BEq α] [LawfulBEq α] {l : List α}
    (h : l.Nodup) (a : α) :
    l.countP (fun x => x == a) = if a ∈ l then 1 else 0 := by
  induction l with
  | nil => rfl
  | cons b bs ih =>
    rcases List.nodup_cons.mp h with ⟨hb, hbs⟩
    rw [List.countP_cons, ih hbs]
    by_cases hab : a = b
    · subst hab
      rw [if_pos (List.mem_cons_self a bs), if_neg hb]
      simp
    · have hba : (b == a) = false := beq_eq_false_iff_ne.mpr (Ne.symm hab)
      rw [hba]
      simp [List.mem_cons, hab]

/-- C2 (amended): for every `project_id`, every store, and every
acceptable object list whose ids are pairwise distinct, saving it twice
in succession returns 200 both times and leaves exactly one row per
distinct object id of the list for that project, and none for any other
id — a full replace, not an append. -/
theorem claim_C2 (pid : Int) (objs : List JObj) (db : DB)
    (hwf : wfObjs objs = true)
    (hnd : (objs.map (fun o => getStrF o "id")).Nodup) :
    (handler (postEvent (saveBody pid objs)) db).resp = .ok saveOkResponse ∧
    (handler (postEvent (saveBody pid objs))
      (handler (postEvent (saveBody pid objs)) db).db).resp = .ok saveOkResponse ∧
    ∀ s : String,
      countRows (handler (postEvent (saveBody pid objs))
        (handler (postEvent (saveBody pid objs)) db).db).db pid s =
        if some s ∈ objs.map (fun o => getStrF o "id") then 1 else 0 := by
  have h1 := handler_save pid objs db hwf
  have hdb1 : (handler (postEvent (saveBody pid objs)) db).db =
      afterSave pid objs db := by rw [h1]
  have h2 := handler_save pid objs (afterSave pid objs db) hwf
  have hdb2 : (handler (postEvent (saveBody pid objs)) (afterSave pid objs db)).db =
      afterSave pid objs (afterSave pid objs db) := by rw [h2]
  refine ⟨by rw [h1], by rw [hdb1, h2], ?_⟩
  intro s
  rw [hdb1, hdb2, countRows_afterSave]
  have hmap : objs.countP (fun o => getStrF o "id" == some s) =
      (objs.map (fun o => getStrF o "id")).countP (fun x => x == some s) :=
    (List.countP_map (fun x => x == some s) (fun o => getStrF o "id") objs).symm
  rw [hmap]
  exact countP_eq_ite_of_nodup hnd (some s)

/-- Witness for C2 at one acceptable object for project 1 on the empty
store. -/
theorem claim_C2_witness :
    wfObjs [[("id", .str "o1"), ("type", .str "rect"), ("x", .int 10),
             ("y", .int 20), ("color", .str "#fff")]] = true ∧
    ([[("id", .str "o1"), ("type", .str "rect"), ("x", .int 10),
       ("y", .int 20), ("color", .str "#fff")]].map
        (fun o => getStrF o "id")).Nodup ∧
    ∀ s : String,
      countRows (handler (postEvent (saveBody 1
        [[("id", .str "o1"), ("type", .str "rect"), ("x", .int 10),
          ("y", .int 20), ("color", .str "#fff")]]))
        (handler (postEvent (saveBody 1
          [[("id", .str "o1"), ("type", .str "rect"), ("x", .int 10),
            ("y", .int 20), ("color", .str "#fff")]])) DB.empty).db).db 1 s =
        if some s ∈ [[("id", .str "o1"), ("type", .str "rect"), ("x", .int 10),
          ("y", .int 20), ("color", .str "#fff")]].map (fun o => getStrF o "id")
        then 1 else 0 :=
  ⟨by decide, by decide,
   (claim_C2 1 _ DB.empty (by decide) (by decide)).2.2⟩

/-- C3: for every acceptable object list saved in one `save_objects`
call for a project, a subsequent GET with that project id returns 200
and its "objects" array lists the saved objects in exactly the payload
order: the read orders rows by `created_at` ascending, which equals the
insertion sequence of that save. -/
theorem claim_C3 (pid : Int) (s : String) (objs : List JObj) (db : DB)
    (hs : ¬ s = "") (hp : pyInt s = .ok pid) (hwf : wfObjs objs = true) :
    (handler (postEvent (saveBody pid objs)) db).resp = .ok saveOkResponse ∧
    respStatus (handler (getByIdEvent s)
      (handler (postEvent (saveBody pid objs)) db).db).resp = some 200 ∧
    ∃ arr : List JVal,
      respField (handler (getByIdEvent s)
        (handler (postEvent (saveBody pid objs)) db).db).resp "objects" =
          some (.arr arr) ∧
      arr.map (fun v => jfield v "object_id") =
        objs.map (fun o => jget o "id") := by
  have h1 := handler_save pid objs db hwf
  have hdb1 : (handler (postEvent (saveBody pid objs)) db).db =
      afterSave pid objs db := by rw [h1]
  have h2 := handler_getById s pid (afterSave pid objs db) hs hp
  refine ⟨by rw [h1], by rw [hdb1, h2]; rfl, ?_⟩
  rw [hdb1, h2]
  refine ⟨((afterSave pid objs db).selectObjects pid).map objectJson, rfl, ?_⟩
  rw [List.map_map, selectObjects_afterSave]
  exact rowsOf_object_id_map pid db.clock objs hwf

/-- Witness for C3: one object saved for project 1, read back via
`?project_id=1`. -/
theorem claim_C3_witness :
    (¬ ("1" : String) = "") ∧ pyInt "1" = .ok 1 ∧
    wfObjs [[("id", .str "o1"), ("type", .str "rect"), ("x", .int 10),
             ("y", .int 20), ("color", .str "#fff")]] = true ∧
    ∃ arr : List JVal,
      respField (handler (getByIdEvent "1")
        (handler (postEvent (saveBody 1
          [[("id", .str "o1"), ("type", .str "rect"), ("x", .int 10),
            ("y", .int 20), ("color", .str "#fff")]])) DB.empty).db).resp "objects" =
          some (.arr arr) ∧
      arr.map (fun v => jfield v "object_id") =
        [[("id", .str "o1"), ("type", .str "rect"), ("x", .int 10),
          ("y", .int 20), ("color", .str "#fff")]].map (fun o => jget o "id") :=
  ⟨by decide, by rfl, by decide,
   (claim_C3 1 "1" _ DB.empty (by decide) (by rfl) (by decide)).2.2⟩

/-- C4: for every GET carrying a numeric `project_id`, the handler
responds 200 with `{"project": P, "objects": O}` where `O` lists all
object rows of that project ordered by `created_at` ascending and `P`
is the matching project row or null when none exists; in particular
`GET ?project_id=999` on the empty store yields
`200 {"project": null, "objects": []}` rather than an error. -/
theorem claim_C4 (s : String) (n : Int) (db : DB)
    (hs : ¬ s = "") (hp : pyInt s = .ok n) :
    handler (getByIdEvent s) db = ⟨.ok (getByIdResponse db n), db, fullTrace⟩ ∧
    (getByIdResponse db n).statusCode = 200 ∧
    handler (getByIdEvent "999") DB.empty =
      ⟨.ok ⟨200, stdHeaders,
            .json (.obj [("project", .null), ("objects", .arr [])]), false⟩,
       DB.empty, fullTrace⟩ :=
  ⟨handler_getById s n db hs hp, rfl, rfl⟩

/-- Witness for C4 at `?project_id=7` on the empty store. -/
theorem claim_C4_witness :
    (¬ ("7" : String) = "") ∧ pyInt "7" = .ok 7 ∧
    handler (getByIdEvent "7") DB.empty =
      ⟨.ok (getByIdResponse DB.empty 7), DB.empty, fullTrace⟩ :=
  ⟨by decide, by rfl, (claim_C4 "7" 7 DB.empty (by decide) (by rfl)).1⟩

/-- C5: on a sane store, `create_project` with name "Demo" responds 201
with the fresh project id, and an immediately subsequent GET with that
id responds 200 with a project object named "Demo" and an empty objects
list. -/
theorem claim_C5 (db : DB) (s : String) (hwf : WFb db = true)
    (hs : ¬ s = "") (hp : pyInt s = .ok db.nextId) :
    (handler (postEvent (createBody "Demo")) db).resp =
      .ok (createdResponse db.nextId) ∧
    (handler (getByIdEvent s) (handler (postEvent (createBody "Demo")) db).db).resp =
      .ok ⟨200, stdHeaders,
           .json (.obj [("project",
                          projectJson ⟨db.nextId, "Demo", "", db.clock + 1⟩),
                        ("objects", .arr [])]), false⟩ := by
  have h1 := handler_create "Demo" db
  have hdb : (handler (postEvent (createBody "Demo")) db).db =
      afterCreate "Demo" "" db := by rw [h1]
  refine ⟨by rw [h1], ?_⟩
  rw [hdb, handler_getById s db.nextId (afterCreate "Demo" "" db) hs hp]
  show Except.ok (getByIdResponse (afterCreate "Demo" "" db) db.nextId) = _
  unfold getByIdResponse
  rw [findProject_afterCreate "Demo" "" db hwf,
      selectObjects_afterCreate "Demo" "" db hwf]
  rfl

/-- Witness for C5 on the empty store (fresh id 1, read back via
`?project_id=1`). -/
theorem claim_C5_witness :
    WFb DB.empty = true ∧ (¬ ("1" : String) = "") ∧
    pyInt "1" = .ok DB.empty.nextId ∧
    (handler (postEvent (createBody "Demo")) DB.empty).resp =
      .ok (createdResponse DB.empty.nextId) :=
  ⟨by decide, by decide, by rfl,
   (claim_C5 DB.empty "1" (by decide) (by decide) (by rfl)).1⟩

/-- C6: a GET with no `project_id` responds 200 with `{"projects": …}`
listing all project rows ordered by `updated_at` descending, leaving
the store untouched; in that order a project updated later appears
strictly before one updated earlier. -/
theorem claim_C6 (db : DB) :
    (handler (getEvent none) db).resp = .ok (listResponse db) ∧
    (handler (getEvent none) db).db = db ∧
    ∀ (i j : Fin db.listProjects.length),
      (db.listProjects.get i).updated_at < (db.listProjects.get j).updated_at →
      (j : Nat) < (i : Nat) := by
  refine ⟨by rw [handler_list], by rw [handler_list], ?_⟩
  intro i j hlt
  have hs := listProjects_sorted db
  rw [List.pairwise_iff_get] at hs
  rcases Nat.lt_trichotomy (j : Nat) (i : Nat) with h | h | h
  · exact h
  · exfalso
    have : j = i := Fin.ext h
    rw [this] at hlt
    exact Nat.lt_irrefl _ hlt
  · exfalso
    have hp : projGe (db.listProjects.get i) (db.listProjects.get j) := hs i j h
    exact Nat.lt_irrefl _ (Nat.lt_of_lt_of_le hlt hp)

/-- Witness for C6: a store with P1 (updated at tick 1) and P2 (updated
at tick 2); in the listing P2 sits at index 0, P1 at index 1. -/
theorem claim_C6_witness :
    ((DB.mk [⟨1, "P1", "", 1⟩, ⟨2, "P2", "", 2⟩] [] 3 2).listProjects.get
        ⟨1, by decide⟩).updated_at <
      ((DB.mk [⟨1, "P1", "", 1⟩, ⟨2, "P2", "", 2⟩] [] 3 2).listProjects.get
        ⟨0, by decide⟩).updated_at ∧
    (0 : Nat) < 1 :=
  ⟨by decide,
   (claim_C6 (DB.mk [⟨1, "P1", "", 1⟩, ⟨2, "P2", "", 2⟩] [] 3 2)).2.2
     ⟨1, by decide⟩ ⟨0, by decide⟩ (by decide)⟩

/-- C7: on every invocation that is not an OPTIONS request, the
connection and cursor are each acquired exactly once and both are
released — cursor first, then connection — at the very end of the
invocation, on the normal exit, on the 405 path, and when an exception
escapes. -/
theorem claim_C7 (e : Event) (db : DB) (h : ¬ e.method = "OPTIONS") :
    (handler e db).events =
      [.acquireConn, .acquireCursor, .releaseCursor, .releaseConn] ∧
    (handler e db).events.count .acquireConn = 1 ∧
    (handler e db).events.count .acquireCursor = 1 := by
  have ht : (handler e db).events =
      [.acquireConn, .acquireCursor, .releaseCursor, .releaseConn] := by
    rw [handler_dispatch e db h]
    cases hb : handlerBody e db with
    | ok p => obtain ⟨r, db1⟩ := p; rfl
    | error err => rfl
  exact ⟨ht, by rw [ht]; rfl, by rw [ht]; rfl⟩

/-- Witness for C7 at a PUT request (which also exercises the 405
path) on the empty store. -/
theorem claim_C7_witness :
    (¬ (Event.mk (some "PUT") none none).method = "OPTIONS") ∧
    (handler (Event.mk (some "PUT") none none) DB.empty).events =
      [.acquireConn, .acquireCursor, .releaseCursor, .releaseConn] :=
  ⟨by decide, (claim_C7 (Event.mk (some "PUT") none none) DB.empty (by decide)).1⟩

/-- C8: malformed input raises and no response is constructed: a GET
whose non-empty `project_id` is not numeric raises `ValueError`, a POST
whose body is not valid JSON raises the JSON decode error, and a
`save_objects` payload containing an object with a required field
missing never produces an `ok` response. -/
theorem claim_C8 (db : DB) (s : String) (pid : Int) (pre post : List JObj)
    (o : JObj) (hs : ¬ s = "") (hp : pyInt s = .error .valueError)
    (hm : missingReq o = true) :
    (handler (getByIdEvent s) db).resp = .error .valueError ∧
    (handler ⟨some "POST", none, some .malformed⟩ db).resp = .error .jsonError ∧
    ∃ err, (handler (postEvent (saveBody pid (pre ++ o :: post))) db).resp =
      .error err := by
  refine ⟨?_, rfl, ?_⟩
  · have hb := handlerBody_getById s db
    rw [if_neg hs] at hb
    simp only [hp, error_bind] at hb
    rw [handler_dispatch (getByIdEvent s) db
      ((by decide : ¬("GET" : String) = "OPTIONS") : _), hb]
  · cases hres : (handler (postEvent (saveBody pid (pre ++ o :: post))) db).resp with
    | error err => exact ⟨err, rfl⟩
    | ok r =>
      exfalso
      obtain ⟨db1, hbody⟩ := @handler_resp_ok
        (postEvent (saveBody pid (pre ++ o :: post))) db r
        ((by decide : ¬("POST" : String) = "OPTIONS") : _) hres
      rw [handlerBody_save] at hbody
      obtain ⟨db2, hins, _⟩ := bind_ok_inv hbody
      have hmem : (JVal.obj o) ∈ (pre ++ o :: post).map JVal.obj :=
        List.mem_map_of_mem _ (List.mem_append_right pre (List.mem_cons_self o post))
      obtain ⟨d, d1, hinsObj⟩ := insertObjects_ok_mem hins _ hmem
      obtain ⟨fs, hfs, hreq⟩ := insertObject_ok_required hinsObj
      injection hfs with hof
      subst hof
      exact absurd (hm.symm.trans hreq) (by decide)

/-- Witness for C8: `?project_id=abc`, a malformed body, and an object
missing `id`, on the empty store. -/
theorem claim_C8_witness :
    (¬ ("abc" : String) = "") ∧ pyInt "abc" = .error .valueError ∧
    missingReq [("type", .str "rect")] = true ∧
    (handler (getByIdEvent "abc") DB.empty).resp = .error .valueError ∧
    (handler ⟨some "POST", none, some .malformed⟩ DB.empty).resp =
      .error .jsonError :=
  ⟨by decide, by rfl, by decide,
   (claim_C8 DB.empty "abc" 1 [] [] [("type", .str "rect")]
     (by decide) (by rfl) (by decide)).1,
   (claim_C8 DB.empty "abc" 1 [] [] [("type", .str "rect")]
     (by decide) (by rfl) (by decide)).2.1⟩

/-- C9: a request whose method is neither OPTIONS nor GET nor POST gets
status 405 with body `{"error": "Method not allowed"}` under
`Content-Type: application/json` and `Access-Control-Allow-Origin: *`,
and the store is left exactly as it was. -/
theorem claim_C9 (e : Event) (db : DB) (h1 : ¬ e.method = "OPTIONS")
    (h2 : ¬ e.method = "GET") (h3 : ¬ e.method = "POST") :
    handler e db = ⟨.ok methodNotAllowed, db, fullTrace⟩ ∧
    methodNotAllowed.statusCode = 405 ∧
    methodNotAllowed.headers =
      [("Content-Type", "application/json"),
       ("Access-Control-Allow-Origin", "*")] ∧
    methodNotAllowed.body = .json (.obj [("error", .str "Method not allowed")]) := by
  have hb : handlerBody e db = .ok (methodNotAllowed, db) := by
    unfold handlerBody
    rw [if_neg h2, if_neg h3]
  refine ⟨?_, rfl, rfl, rfl⟩
  rw [handler_dispatch e db h1, hb]

/-- Witness for C9 at a DELETE request on the empty store. -/
theorem claim_C9_witness :
    (¬ (Event.mk (some "DELETE") none none).method = "OPTIONS") ∧
    (¬ (Event.mk (some "DELETE") none none).method = "GET") ∧
    (¬ (Event.mk (some "DELETE") none none).method = "POST") ∧
    handler (Event.mk (some "DELETE") none none) DB.empty =
      ⟨.ok methodNotAllowed, DB.empty, fullTrace⟩ :=
  ⟨by decide, by decide, by decide,
   (claim_C9 (Event.mk (some "DELETE") none none) DB.empty
     (by decide) (by decide) (by decide)).1⟩

/-- C10: a GET whose `project_id` query parameter is present but empty
takes the listing branch exactly as if the parameter were absent: the
whole invocation result is the same and the response is the 200
`{"projects": …}` listing. -/
theorem claim_C10 (db : DB) (ps : List (String × String))
    (h : ps.lookup "project_id" = some "") :
    handler (getEvent (some ps)) db = handler (getEvent none) db ∧
    (handler (getEvent (some ps)) db).resp = .ok (listResponse db) := by
  have hb : handlerBody (getEvent (some ps)) db = .ok (listResponse db, db) := by
    rw [handlerBody_getParams, h]
    rfl
  have hthis : handler (getEvent (some ps)) db =
      ⟨.ok (listResponse db), db, fullTrace⟩ := by
    rw [handler_dispatch (getEvent (some ps)) db
      ((by decide : ¬("GET" : String) = "OPTIONS") : _), hb]
  rw [hthis, handler_list]
  exact ⟨rfl, rfl⟩

/-- Witness for C10 at the query string `?project_id=` on the empty
store. -/
theorem claim_C10_witness :
    ([(("project_id" : String), ("" : String))].lookup "project_id" = some "") ∧
    handler (getEvent (some [("project_id", "")])) DB.empty =
      handler (getEvent none) DB.empty :=
  ⟨by decide, (claim_C10 DB.empty [("project_id", "")] (by decide)).1⟩

end CanvasApi
